import Mathlib

/-!
Shallow embedding of the internship recommendation engine:
the rule-based scorer of `app/recommendation_engine.py`
(class `InternshipRecommender`) and the hybrid fusion of `app/model.py`
(class `RecommendationEngine`).

Modelling conventions:
* Python strings are Lean `String`s; `strip`, `lower`, `split` and
  `replace` are modelled character-wise (`Char.toLower` is the ASCII case
  map, which agrees with Python on the ASCII data this program handles).
* Python `float` arithmetic is modelled by exact rationals `ℚ`.
* Code that can raise a Python exception (`IndexError` from `split()[0]`
  or `.iloc[0]`) returns `Option`: `none` models the raised exception.
* `list.sort` / `sorted` are guaranteed stable by Python; they are
  modelled by `List.insertionSort`, which is the stable sort for the
  total preorders used here.
-/

open scoped List

/-- Python `str.strip()`: drop leading and trailing whitespace. -/
def pyStrip (s : String) : String :=
  ⟨((s.data.dropWhile Char.isWhitespace).reverse.dropWhile Char.isWhitespace).reverse⟩

/-- Python `str.lower()` (ASCII case mapping). -/
def pyLower (s : String) : String := ⟨s.data.map Char.toLower⟩

/-- Core of Python `str.split(sep)` for a one-character separator test:
the first token and the list of remaining tokens. -/
def splitCore (p : Char → Bool) : List Char → List Char × List (List Char)
  | [] => ([], [])
  | c :: cs =>
    let r := splitCore p cs
    if p c then ([], r.1 :: r.2) else (c :: r.1, r.2)

/-- Python `str.split(sep)` for a one-character separator: split at every
separator, keeping empty tokens, so `"".split(";") == [""]` and
`"a;;b".split(";") == ["a", "", "b"]`. -/
def pySplit (p : Char → Bool) (s : String) : List String :=
  ((splitCore p s.data).1 :: (splitCore p s.data).2).map String.mk

/-- Python `str.split()` with no argument: split on whitespace and discard
empty tokens, so `"".split() == []` and `"  ".split() == []`. -/
def pyWords (s : String) : List String :=
  (((splitCore Char.isWhitespace s.data).1 :: (splitCore Char.isWhitespace s.data).2).filter
    (fun t => decide (t ≠ []))).map String.mk

/-- Python `str.replace(a, b)` for one-character `a` and `b`. -/
def pyReplace (a b : Char) (s : String) : String :=
  ⟨s.data.map fun c => if c = a then b else c⟩

/-- The single comma-delimited string representation of a list of phrases:
`", ".join(phrases)`. -/
def joinComma : List String → String
  | [] => ""
  | [p] => p
  | p :: ps => p ++ ", " ++ joinComma ps

/-- Dataclass `Internship` (`recommendation_engine.py`): one internship opportunity. -/
structure Internship where
  id : String
  title : String
  organization : String
  location : String
  education_levels : List String
  skills : List String
  interests : List String
  description : String
  compensation : String
  delivery_mode : String
deriving DecidableEq

/-- Dataclass `Recommendation`: a scored internship with human-readable reasons. -/
structure Recommendation where
  internship : Internship
  score : ℚ
  reasons : List String
deriving DecidableEq

/-- Dataclass `UserProfile`: the rule-based recommender's input. -/
structure UserProfile where
  education : String
  skills : List String
  interests : List String
  location : String
deriving DecidableEq

namespace InternshipRecommender

/-- The `WEIGHTS` class constant, as a lookup on the dictionary's keys. -/
def WEIGHTS (key : String) : ℚ :=
  if key = "skills" then 0.4
  else if key = "interests" then 0.25
  else if key = "education" then 0.2
  else if key = "location" then 0.15
  else 0

/-- Method `_normalize`: `text.strip().lower()`. -/
def _normalize (text : String) : String := pyLower (pyStrip text)

/-- Method `_tokenize`: `[self._normalize(item) for item in items if item]`. -/
def _tokenize (items : List String) : List String :=
  (items.filter (fun item => decide (item ≠ ""))).map _normalize

/-- Method `_location_score`.  Python evaluates `user_loc.split()[0]` when the
token-set test passes; that indexing raises `IndexError` whenever a
normalized location is empty while the raw one is not, and `none` models
that exception. -/
def _location_score (user_location internship_location : String) : Option ℚ :=
  if user_location = "" then some 0
  else
    let user_loc := _normalize user_location
    let internship_loc := _normalize internship_location
    if user_loc = internship_loc then some 1
    else
      let tokens :=
        ((pySplit (fun c => c = ',') user_loc ++ pySplit (fun c => c = ',') internship_loc).filter
          (fun token => decide (token ≠ ""))).dedup
      if tokens.length < 4 then
        match (pyWords user_loc).head?, (pyWords internship_loc).head? with
        | some u, some i => some (if u = i then 0.5 else 0)
        | _, _ => none
      else some 0

/-- Method `_match_fraction`: `|user ∩ target| / |target|` over the normalized
token sets, and 0 when either set is empty. -/
def _match_fraction (user_items target_items : List String) : ℚ :=
  let user_tokens := (_tokenize user_items).dedup
  let target_tokens := (_tokenize target_items).dedup
  if user_tokens = [] ∨ target_tokens = [] then 0
  else ((user_tokens.filter (fun t => decide (t ∈ target_tokens))).length : ℚ) / target_tokens.length

/-- The tokens named in a reason string: the intersection of the two
normalized token sets, sorted (`sorted(matched)` in `score`). -/
def matchedTokens (user_items target_items : List String) : List String :=
  ((_tokenize user_items).dedup.filter (fun t => decide (t ∈ _tokenize target_items))).insertionSort
    (fun a b => a ≤ b)

/-- The education factor of `score`: 1.0 when the normalized profile
education is among the normalized accepted levels, else 0.0. -/
def educationScore (profile : UserProfile) (internship : Internship) : ℚ :=
  if _normalize profile.education ∈ internship.education_levels.map _normalize then 1 else 0

/-- The weighted sum of the four factors (`score`, lines 140-147). -/
def weighted_score (skill_score interest_score edu_score loc_score : ℚ) : ℚ :=
  skill_score * WEIGHTS "skills" + interest_score * WEIGHTS "interests"
    + edu_score * WEIGHTS "education" + loc_score * WEIGHTS "location"

/-- The delivery-mode bonus test of `score` (line 150):
`internship.delivery_mode.lower() in {"remote", "hybrid"}`.  Note that the
source lower-cases but does not strip this field. -/
def remoteFriendly (internship : Internship) : Prop :=
  pyLower internship.delivery_mode = "remote" ∨ pyLower internship.delivery_mode = "hybrid"

instance (internship : Internship) : Decidable (remoteFriendly internship) :=
  inferInstanceAs (Decidable (_ ∨ _))

/-- Method `score`: the multi-factor rule-based scorer.  `none` models the
`IndexError` that `_location_score` can raise. -/
def score (profile : UserProfile) (internship : Internship) : Option Recommendation :=
  match _location_score profile.location internship.location with
  | none => none
  | some location_score =>
    let skill_score := _match_fraction profile.skills internship.skills
    let interest_score := _match_fraction profile.interests internship.interests
    let edu_score := educationScore profile internship
    let reasons :=
      (if skill_score ≠ 0 then
        ["Skills match: " ++
          String.intercalate ", " (matchedTokens profile.skills internship.skills) ++ "."]
      else []) ++
      (if interest_score ≠ 0 then
        ["Interests match: " ++
          String.intercalate ", " (matchedTokens profile.interests internship.interests) ++ "."]
      else []) ++
      (if edu_score ≠ 0 then ["Education level fits (" ++ profile.education ++ ")."] else []) ++
      (if location_score ≠ 0 then
        (if location_score = 1 then ["Location match for local access."]
         else ["Near-by region match for travel-friendly placement."])
      else [])
    let base := weighted_score skill_score interest_score edu_score location_score
    if remoteFriendly internship then
      some ⟨internship, base + 0.05, reasons ++ ["Hybrid/remote friendly for low-bandwidth access."]⟩
    else some ⟨internship, base, reasons⟩

/-- The comprehension `[self.score(profile, internship) for internship in self.internships]`,
propagating a raised exception. -/
def scoreAll (profile : UserProfile) : List Internship → Option (List Recommendation)
  | [] => some []
  | internship :: rest =>
    match score profile internship, scoreAll profile rest with
    | some r, some rs => some (r :: rs)
    | _, _ => none

/-- The ordering of `ranked.sort(key=lambda rec: rec.score, reverse=True)`:
descending by score (stability is the sort's, not the relation's). -/
def byScoreDesc (a b : Recommendation) : Prop := b.score ≤ a.score

instance : DecidableRel byScoreDesc :=
  fun a b => inferInstanceAs (Decidable (b.score ≤ a.score))

instance : IsTotal Recommendation byScoreDesc := ⟨fun a b => le_total b.score a.score⟩

instance : IsTrans Recommendation byScoreDesc := ⟨fun _ _ _ hab hbc => le_trans hbc hab⟩

/-- Method `recommend`: score every internship, sort stably by descending score,
keep strictly positive scores, and truncate to `limit` entries when
`limit > 0` (`[: limit if limit > 0 else None]` keeps everything
otherwise). -/
def recommend (profile : UserProfile) (internships : List Internship) (limit : Int) :
    Option (List Recommendation) :=
  (scoreAll profile internships).map fun ranked =>
    let sorted := ranked.insertionSort byScoreDesc
    let positive := sorted.filter fun r => decide (0 < r.score)
    if 0 < limit then positive.take limit.toNat else positive

end InternshipRecommender

/-- One row of the training dataset (`model.py`), restricted to the fields
the hybrid scorer reads. -/
structure DataRecord where
  recommended_career : String
  skills : String
  interests : String
  education : String
deriving DecidableEq

/-- The candidate profile dict of `RecommendationEngine.recommend`:
`profile.get(key, "")` for the three text fields (a missing key is the
empty string). -/
structure CandidateProfile where
  skills : String
  interests : String
  education : String
deriving DecidableEq

/-- Dataclass `RecommendationResult` (`model.py`). -/
structure RecommendationResult where
  career : String
  probability : ℚ
  rationale : String
deriving DecidableEq

namespace RecommendationEngine

/-- Method `_clean_list`, the hybrid tokenizer:
`[token.strip().lower() for token in text.replace(",", ";").split(";") if token.strip()]`. -/
def _clean_list (text : String) : List String :=
  ((pySplit (fun c => c = ';') (pyReplace ',' ';' text)).filter
    (fun token => decide (pyStrip token ≠ ""))).map (fun token => pyLower (pyStrip token))

/-- Method `_clean_list` on an arbitrary payload: the `isinstance(text, str)` guard
returns `[]` for any non-string input, which `none` models. -/
def _clean_list_any : Option String → List String
  | none => []
  | some text => _clean_list text

/-- The selection `self.dataset[self.dataset["recommended_career"] == career].iloc[0]`:
the first dataset row carrying the career label.  `none` models the
`IndexError` that `.iloc[0]` raises on an empty selection. -/
def firstRecordFor (dataset : List DataRecord) (career : String) : Option DataRecord :=
  dataset.find? (fun record => decide (record.recommended_career = career))

/-- One overlap fraction of `_rule_based_boost`:
`len(profile_set & career_set) / max(len(career_set), 1)` over the
`_clean_list` token sets. -/
def overlapFrac (profile_items career_items : String) : ℚ :=
  (((_clean_list profile_items).dedup.filter
      (fun t => decide (t ∈ (_clean_list career_items).dedup))).length : ℚ)
    / ((max (_clean_list career_items).dedup.length 1 : ℕ) : ℚ)

/-- The education factor of `_rule_based_boost`:
`1.0 if str(profile.get("education", "")).lower() == str(record.get("education", "")).lower() else 0.0`
(lower-cased but, unlike the rule-based engine, not stripped). -/
def educationMatch (profile : CandidateProfile) (record : DataRecord) : ℚ :=
  if pyLower profile.education = pyLower record.education then 1 else 0

/-- Method `_rule_based_boost`; `none` models the `IndexError` raised when the
career label has no backing dataset row. -/
def _rule_based_boost (dataset : List DataRecord) (profile : CandidateProfile)
    (career : String) : Option ℚ :=
  (firstRecordFor dataset career).map fun record =>
    0.1 * overlapFrac profile.skills record.skills
      + 0.05 * overlapFrac profile.interests record.interests
      + 0.05 * educationMatch profile record

/-- Python `f"{x:.2f}"` applied to the exact rational value: round half to
even at two decimals. -/
def fmt2 (q : ℚ) : String :=
  let scaled := q * 100
  let f := ⌊scaled⌋
  let n : ℤ :=
    if (1 : ℚ)/2 < scaled - f then f + 1
    else if scaled - f < 1/2 then f
    else if f % 2 = 0 then f else f + 1
  let m := n.natAbs
  (if n < 0 then "-" else "") ++ toString (m / 100) ++ "." ++
    (if m % 100 < 10 then "0" else "") ++ toString (m % 100)

/-- Method `_describe_overlap`; `none` models the `IndexError` of its `.iloc[0]`. -/
def _describe_overlap (dataset : List DataRecord) (profile : CandidateProfile)
    (career : String) : Option String :=
  (firstRecordFor dataset career).map fun record =>
    let matched_skills :=
      ((_clean_list profile.skills).dedup.filter
        (fun t => decide (t ∈ _clean_list record.skills))).insertionSort (fun a b => a ≤ b)
    let matched_interests :=
      ((_clean_list profile.interests).dedup.filter
        (fun t => decide (t ∈ _clean_list record.interests))).insertionSort (fun a b => a ≤ b)
    let details :=
      (if matched_skills ≠ [] then
        ["skills: " ++ String.intercalate ", " matched_skills] else []) ++
      (if matched_interests ≠ [] then
        ["interests: " ++ String.intercalate ", " matched_interests] else [])
    String.intercalate "; " details

/-- Method `_build_rationale`. -/
def _build_rationale (dataset : List DataRecord) (profile : CandidateProfile)
    (career : String) (base_prob boost : ℚ) : Option String :=
  (_describe_overlap dataset profile career).map fun matched =>
    let parts :=
      ["Model score: " ++ fmt2 base_prob] ++
      (if 0 < boost then ["Rule-based alignment boost: +" ++ fmt2 boost] else []) ++
      (if matched ≠ "" then ["Overlap on skills/interests: " ++ matched] else [])
    String.intercalate "; " parts

/-- The loop body of `recommend` (`model.py` lines 160-164), the fusion of
one class label's base probability with the rule-based boost:
`final_prob = min(base_prob + boost, 1.0)`. -/
def fuse (dataset : List DataRecord) (profile : CandidateProfile)
    (career : String) (base_prob : ℚ) : Option RecommendationResult :=
  match _rule_based_boost dataset profile career with
  | none => none
  | some boost =>
    match _build_rationale dataset profile career base_prob boost with
    | none => none
    | some rationale => some ⟨career, min (base_prob + boost) 1, rationale⟩

/-- The probability ordering of
`sorted(zip(self.model.classes_, proba), key=lambda x: x[1], reverse=True)`. -/
def byProbDesc (a b : String × ℚ) : Prop := b.2 ≤ a.2

instance : DecidableRel byProbDesc :=
  fun a b => inferInstanceAs (Decidable (b.2 ≤ a.2))

/-- Method `RecommendationEngine.recommend`: the classifier's per-class
probabilities (an external collaborator) arrive as `classes` and `proba`;
the engine ranks them by descending probability, keeps the first `top_n`,
and fuses each with the rule-based boost.  `none` models an `IndexError`
escaping the loop. -/
def recommend (dataset : List DataRecord) (profile : CandidateProfile)
    (classes : List String) (proba : List ℚ) (top_n : Nat) :
    Option (List RecommendationResult) :=
  let ranked := (classes.zip proba).insertionSort byProbDesc
  go (ranked.take top_n)
where
  /-- The `for career, base_prob in ranked[:top_n]` loop, propagating a
  raised exception. -/
  go : List (String × ℚ) → Option (List RecommendationResult)
    | [] => some []
    | cb :: rest =>
      match fuse dataset profile cb.1 cb.2, go rest with
      | some r, some rs => some (r :: rs)
      | _, _ => none

end RecommendationEngine

/-! ### Concrete fixtures used by witnesses and counterexamples -/

/-- The profile of the spec's worked example (§8). -/
def profileEx : UserProfile :=
  ⟨"Bachelor\x27s", ["python", "data analysis"], ["ai"], ""⟩

/-- The internship of the spec's worked example (§8). -/
def internshipEx : Internship :=
  ⟨"i1", "Data Intern", "Org", "Remote", ["Bachelor\x27s"], ["python", "sql"],
    ["ai", "ml"], "", "Unknown", "remote"⟩

/-- A profile whose location is whitespace-only (truthy in Python, empty
once stripped). -/
def profileBlankLoc : UserProfile := ⟨"Bachelor\x27s", [], [], " "⟩

/-- An internship with an ordinary non-empty location. -/
def internshipCity : Internship :=
  ⟨"i2", "T", "Org", "x", [], [], [], "", "Unknown", "onsite"⟩

/-- A profile with every field empty. -/
def profileEmpty : UserProfile := ⟨"", [], [], ""⟩

/-- An internship whose delivery mode is `" remote "`: equal to `"remote"`
after strip+lower, but not after lower alone. -/
def internshipPadded : Internship :=
  ⟨"i3", "T", "Org", "", [], [], [], "", "Unknown", " remote "⟩

/-- An internship whose delivery mode is exactly `"remote"`. -/
def internshipRemote : Internship :=
  ⟨"i4", "T", "Org", "", [], [], [], "", "Unknown", "remote"⟩

/-- A second remote internship, to exercise score ties. -/
def internshipRemote2 : Internship :=
  ⟨"i5", "U", "Org2", "", [], [], [], "", "Unknown", "hybrid"⟩

/-- A profile and internship matching on every factor. -/
def profileFull : UserProfile := ⟨"B", ["a"], ["b"], "y"⟩

/-- The internship `profileFull` fully matches. -/
def internshipFull : Internship :=
  ⟨"i6", "T", "Org", "y", ["B"], ["a"], ["b"], "", "Unknown", "remote"⟩

/-- A one-row dataset for the hybrid engine. -/
def datasetEx : List DataRecord :=
  [⟨"data science", "python; ml", "ai", "Bachelor"⟩]

/-- A hybrid candidate profile overlapping `datasetEx`'s row. -/
def candidateEx : CandidateProfile := ⟨"python", "ai", "bachelor"⟩

/-! ### C4 — the spec's worked example -/

/-- C4: on the worked example (profile: Bachelor's / {python, data analysis}
/ {ai} / no location; internship: skills {python, sql}, levels {Bachelor's},
interests {ai, ml}, delivery mode "remote") the rule-based scorer returns
exactly 0.575 = 0.5·0.40 + 0.5·0.25 + 1.0·0.20 + 0·0.15 + 0.05, with reason
strings naming "python" for skills and "ai" for interests. -/
theorem C4_worked_example :
    InternshipRecommender.score profileEx internshipEx =
      some ⟨internshipEx, 0.575,
        ["Skills match: python.", "Interests match: ai.",
         "Education level fits (Bachelor\x27s).",
         "Hybrid/remote friendly for low-bandwidth access."]⟩ ∧
    (0.575 : ℚ) =
      (1/2) * InternshipRecommender.WEIGHTS "skills"
        + (1/2) * InternshipRecommender.WEIGHTS "interests"
        + 1 * InternshipRecommender.WEIGHTS "education"
        + 0 * InternshipRecommender.WEIGHTS "location" + 0.05 := by
  constructor
  · with_unfolding_all rfl
  · with_unfolding_all rfl

/-! ### C2 — the whitespace-only-location crash -/

/-- C2 (code bug): the claim says the location-score computation returns a
value for every pair of location strings and that `score` never raises; but
for a whitespace-only profile location (truthy, hence past the emptiness
guard, yet empty once normalized) `user_loc.split()[0]` raises
`IndexError`.  `none` is the modelled exception. -/
theorem C2_blank_location_raises :
    InternshipRecommender._location_score " " "x" = none ∧
    InternshipRecommender.score profileBlankLoc internshipCity = none ∧
    InternshipRecommender.recommend profileBlankLoc [internshipCity] 5 = none := by
  refine ⟨?_, ?_, ?_⟩ <;> with_unfolding_all rfl

/-! ### C8 — monotonicity of the weighted score -/

/-- C8: the weighted rule-based score is monotone non-decreasing in each
factor separately, the other three held fixed. -/
theorem C8_weighted_score_monotone (s s' i i' e e' l l' : ℚ) :
    (s ≤ s' → InternshipRecommender.weighted_score s i e l ≤
      InternshipRecommender.weighted_score s' i e l) ∧
    (i ≤ i' → InternshipRecommender.weighted_score s i e l ≤
      InternshipRecommender.weighted_score s i' e l) ∧
    (e ≤ e' → InternshipRecommender.weighted_score s i e l ≤
      InternshipRecommender.weighted_score s i e' l) ∧
    (l ≤ l' → InternshipRecommender.weighted_score s i e l ≤
      InternshipRecommender.weighted_score s i e l') := by
  have w1 : InternshipRecommender.WEIGHTS "skills" = 2/5 := by with_unfolding_all rfl
  have w2 : InternshipRecommender.WEIGHTS "interests" = 1/4 := by with_unfolding_all rfl
  have w3 : InternshipRecommender.WEIGHTS "education" = 1/5 := by with_unfolding_all rfl
  have w4 : InternshipRecommender.WEIGHTS "location" = 3/20 := by with_unfolding_all rfl
  refine ⟨fun h => ?_, fun h => ?_, fun h => ?_, fun h => ?_⟩ <;>
    simp only [InternshipRecommender.weighted_score, w1, w2, w3, w4] <;> linarith

/-! ### Hybrid fusion: shared lemmas -/

namespace RecommendationEngine

lemma describe_overlap_isSome (dataset : List DataRecord) (profile : CandidateProfile)
    (career : String) (record : DataRecord)
    (hrec : firstRecordFor dataset career = some record) :
    ∃ d, _describe_overlap dataset profile career = some d :=
  ⟨_, by rw [_describe_overlap, hrec]; rfl⟩

lemma build_rationale_isSome (dataset : List DataRecord) (profile : CandidateProfile)
    (career : String) (record : DataRecord) (base_prob boost : ℚ)
    (hrec : firstRecordFor dataset career = some record) :
    ∃ r, _build_rationale dataset profile career base_prob boost = some r := by
  obtain ⟨d, hd⟩ := describe_overlap_isSome dataset profile career record hrec
  exact ⟨_, by rw [_build_rationale, hd]; rfl⟩

lemma boost_record_of_some (dataset : List DataRecord) (profile : CandidateProfile)
    (career : String) (boost : ℚ)
    (hb : _rule_based_boost dataset profile career = some boost) :
    ∃ record, firstRecordFor dataset career = some record := by
  rw [_rule_based_boost] at hb
  cases hrec : firstRecordFor dataset career with
  | none => rw [hrec] at hb; simp at hb
  | some record => exact ⟨record, rfl⟩

/-- When the boost is defined, `fuse` succeeds and caps the sum at 1. -/
lemma fuse_spec (dataset : List DataRecord) (profile : CandidateProfile)
    (career : String) (base_prob boost : ℚ)
    (hb : _rule_based_boost dataset profile career = some boost) :
    ∃ rationale, fuse dataset profile career base_prob =
      some ⟨career, min (base_prob + boost) 1, rationale⟩ := by
  obtain ⟨record, hrec⟩ := boost_record_of_some dataset profile career boost hb
  obtain ⟨r, hr⟩ :=
    build_rationale_isSome dataset profile career record base_prob boost hrec
  exact ⟨r, by rw [fuse]; simp only [hb, hr]⟩

/-- Every successful fusion result has probability at most 1. -/
lemma fuse_probability_le (dataset : List DataRecord) (profile : CandidateProfile)
    (career : String) (base_prob : ℚ) (res : RecommendationResult)
    (h : fuse dataset profile career base_prob = some res) :
    res.probability ≤ 1 := by
  rw [fuse] at h
  cases hb : _rule_based_boost dataset profile career with
  | none => rw [hb] at h; simp at h
  | some boost =>
    simp only [hb] at h
    cases hr : _build_rationale dataset profile career base_prob boost with
    | none => simp only [hr] at h; exact absurd h (by simp)
    | some rationale =>
      simp only [hr, Option.some.injEq] at h
      rw [← h]
      exact min_le_right _ _

lemma go_probability_le (dataset : List DataRecord) (profile : CandidateProfile) :
    ∀ l out, recommend.go dataset profile l = some out →
      ∀ res ∈ out, res.probability ≤ 1 := by
  intro l
  induction l with
  | nil =>
    intro out h res hres
    rw [recommend.go] at h
    simp only [Option.some.injEq] at h
    subst h
    simp at hres
  | cons cb rest ih =>
    intro out h res hres
    rw [recommend.go] at h
    cases hf : fuse dataset profile cb.1 cb.2 with
    | none => rw [hf] at h; simp at h
    | some r =>
      rw [hf] at h
      cases hg : recommend.go dataset profile rest with
      | none => rw [hg] at h; simp at h
      | some rs =>
        rw [hg] at h
        simp only [Option.some.injEq] at h
        subst h
        rcases List.mem_cons.mp hres with hres | hres
        · subst hres; exact fuse_probability_le dataset profile cb.1 cb.2 res hf
        · exact ih rs hg res hres

end RecommendationEngine

/-! ### C3 — fusion is capped at 1 -/

/-- C3: for every profile, class label, base probability and defined boost,
`fuse` produces `finalScore = min(baseProbability + boost, 1)`, every
successful fusion result is ≤ 1, and hence every result of the hybrid
`recommend` has probability ≤ 1, whatever the magnitudes involved. -/
theorem C3_fusion_min_cap (dataset : List DataRecord) (profile : CandidateProfile)
    (career : String) (base_prob : ℚ) :
    (∀ boost, RecommendationEngine._rule_based_boost dataset profile career = some boost →
      ∃ res, RecommendationEngine.fuse dataset profile career base_prob = some res ∧
        res.probability = min (base_prob + boost) 1) ∧
    (∀ res, RecommendationEngine.fuse dataset profile career base_prob = some res →
      res.probability ≤ 1) ∧
    (∀ classes proba top_n out,
      RecommendationEngine.recommend dataset profile classes proba top_n = some out →
      ∀ res ∈ out, res.probability ≤ 1) := by
  refine ⟨fun boost hb => ?_, fun res h => ?_, fun classes proba top_n out h res hres => ?_⟩
  · obtain ⟨rationale, hr⟩ :=
      RecommendationEngine.fuse_spec dataset profile career base_prob boost hb
    exact ⟨_, hr, rfl⟩
  · exact RecommendationEngine.fuse_probability_le dataset profile career base_prob res h
  · rw [RecommendationEngine.recommend] at h
    exact RecommendationEngine.go_probability_le dataset profile _ out h res hres

/-! ### C10 — bounds on the rule-based boost -/

namespace RecommendationEngine

/-- Each `_rule_based_boost` overlap fraction lies in `[0, 1]`. -/
lemma overlapFrac_bounds (profile_items career_items : String) :
    0 ≤ overlapFrac profile_items career_items ∧
      overlapFrac profile_items career_items ≤ 1 := by
  rw [overlapFrac]
  set a := (_clean_list profile_items).dedup with ha
  set b := (_clean_list career_items).dedup with hb
  have hden : (0 : ℚ) < ((max b.length 1 : ℕ) : ℚ) := by
    exact_mod_cast Nat.lt_of_lt_of_le Nat.zero_lt_one (le_max_right b.length 1)
  have hnum : (a.filter (fun t => decide (t ∈ b))).length ≤ max b.length 1 := by
    have hsub : (a.filter (fun t => decide (t ∈ b))) ⊆ b := fun t ht =>
      of_decide_eq_true (List.mem_filter.mp ht).2
    have hnd : (a.filter (fun t => decide (t ∈ b))).Nodup :=
      (List.nodup_dedup _).filter _
    exact le_trans (hnd.subperm hsub).length_le (le_max_left b.length 1)
  constructor
  · exact div_nonneg (by positivity) hden.le
  · rw [div_le_one hden]
    exact_mod_cast hnum

/-- The education factor of the boost is 0 or 1. -/
lemma educationMatch_cases (profile : CandidateProfile) (record : DataRecord) :
    educationMatch profile record = 0 ∨ educationMatch profile record = 1 := by
  rw [educationMatch]
  by_cases h : pyLower profile.education = pyLower record.education <;> simp [h]

end RecommendationEngine

/-- C10: whenever the class label has a backing record and the base
probability is a genuine probability, the rule-based boost is defined and
lies in `[0, 0.2]`; hence the fused final score is at least the base
probability and at most `min(base + 0.2, 1)`. -/
theorem C10_boost_bounded (dataset : List DataRecord) (profile : CandidateProfile)
    (career : String) (record : DataRecord)
    (hrec : RecommendationEngine.firstRecordFor dataset career = some record)
    (base_prob : ℚ) (hb0 : 0 ≤ base_prob) (hb1 : base_prob ≤ 1) :
    ∃ boost, RecommendationEngine._rule_based_boost dataset profile career = some boost ∧
      0 ≤ boost ∧ boost ≤ 0.2 ∧
      ∀ res, RecommendationEngine.fuse dataset profile career base_prob = some res →
        base_prob ≤ res.probability ∧ res.probability ≤ min (base_prob + 0.2) 1 := by
  have hbsome : (RecommendationEngine._rule_based_boost dataset profile career).isSome := by
    rw [RecommendationEngine._rule_based_boost, hrec]; rfl
  obtain ⟨boost, hb⟩ := Option.isSome_iff_exists.mp hbsome
  have hkey : 0 ≤ boost ∧ boost ≤ 0.2 := by
    have hs := RecommendationEngine.overlapFrac_bounds profile.skills record.skills
    have hi := RecommendationEngine.overlapFrac_bounds profile.interests record.interests
    have he : 0 ≤ RecommendationEngine.educationMatch profile record ∧
        RecommendationEngine.educationMatch profile record ≤ 1 := by
      rcases RecommendationEngine.educationMatch_cases profile record with h | h <;>
        rw [h] <;> norm_num
    rw [RecommendationEngine._rule_based_boost, hrec] at hb
    simp only [Option.map_some', Option.some.injEq] at hb
    rw [← hb]
    constructor <;> nlinarith [hs.1, hs.2, hi.1, hi.2, he.1, he.2]
  refine ⟨boost, hb, hkey.1, hkey.2, ?_⟩
  intro res hres
  obtain ⟨rationale, hr⟩ :=
    RecommendationEngine.fuse_spec dataset profile career base_prob boost hb
  rw [hres] at hr
  simp only [Option.some.injEq] at hr
  subst hr
  exact ⟨le_min (by nlinarith [hkey.1]) hb1, min_le_min (by nlinarith [hkey.2]) le_rfl⟩

/-- C10 witness: the bounds applied to the concrete one-row dataset with
base probability 1/2. -/
theorem C10_boost_bounded_witness :
    ∃ boost, RecommendationEngine._rule_based_boost datasetEx candidateEx
        "data science" = some boost ∧
      0 ≤ boost ∧ boost ≤ 0.2 ∧
      ∀ res, RecommendationEngine.fuse datasetEx candidateEx "data science" (1/2) =
          some res →
        (1 : ℚ)/2 ≤ res.probability ∧ res.probability ≤ min ((1 : ℚ)/2 + 0.2) 1 :=
  C10_boost_bounded datasetEx candidateEx "data science"
    ⟨"data science", "python; ml", "ai", "Bachelor"⟩ (by with_unfolding_all rfl)
    (1/2) (by norm_num) (by norm_num)

/-! ### C7 — class label without a backing record -/

/-- C7 counterexample: for a label absent from the dataset the code does not
return a zero boost; `.iloc[0]` on the empty selection raises `IndexError`
(modelled `none`), and the hybrid `recommend` crashes rather than
completing. -/
theorem C7_counterexample :
    RecommendationEngine._rule_based_boost datasetEx candidateEx "unknown" ≠ some 0 ∧
    RecommendationEngine._rule_based_boost datasetEx candidateEx "unknown" = none ∧
    RecommendationEngine.recommend datasetEx candidateEx ["unknown"] [1/2] 3 = none := by
  refine ⟨?_, ?_, ?_⟩
  · with_unfolding_all decide
  · with_unfolding_all rfl
  · with_unfolding_all rfl

namespace RecommendationEngine

lemma fuse_isSome_of_record (dataset : List DataRecord) (profile : CandidateProfile)
    (career : String) (base_prob : ℚ) (record : DataRecord)
    (hrec : firstRecordFor dataset career = some record) :
    ∃ res, fuse dataset profile career base_prob = some res := by
  have hbsome : (_rule_based_boost dataset profile career).isSome := by
    rw [_rule_based_boost, hrec]; rfl
  obtain ⟨boost, hb⟩ := Option.isSome_iff_exists.mp hbsome
  obtain ⟨rationale, hr⟩ := fuse_spec dataset profile career base_prob boost hb
  exact ⟨_, hr⟩

lemma go_isSome_of_backed (dataset : List DataRecord) (profile : CandidateProfile) :
    ∀ l, (∀ cb ∈ l, ∃ record ∈ dataset, record.recommended_career = cb.1) →
      ∃ out, recommend.go dataset profile l = some out := by
  intro l
  induction l with
  | nil => exact fun _ => ⟨[], rfl⟩
  | cons cb rest ih =>
    intro h
    obtain ⟨record, hmem, hcareer⟩ := h cb (List.mem_cons_self cb rest)
    have hsome : (firstRecordFor dataset cb.1).isSome := by
      rw [firstRecordFor, List.find?_isSome]
      exact ⟨record, hmem, by simp [hcareer]⟩
    obtain ⟨r, hr⟩ := Option.isSome_iff_exists.mp hsome
    obtain ⟨res, hres⟩ := fuse_isSome_of_record dataset profile cb.1 cb.2 r hr
    obtain ⟨out, hout⟩ := ih (fun x hx => h x (List.mem_cons_of_mem cb hx))
    exact ⟨res :: out, by rw [recommend.go]; simp only [hres, hout]⟩

end RecommendationEngine

/-- C7 (corrected): a class label with no backing dataset record does not
produce a zero boost — `_rule_based_boost` raises (`none`); the hybrid
`recommend` completes without crashing exactly when every fused candidate
label has a backing record. -/
theorem C7_missing_record (dataset : List DataRecord) (profile : CandidateProfile)
    (career : String)
    (h : ∀ record ∈ dataset, record.recommended_career ≠ career) :
    RecommendationEngine._rule_based_boost dataset profile career = none ∧
    ∀ classes proba top_n,
      (∀ cb ∈ ((classes.zip proba).insertionSort RecommendationEngine.byProbDesc).take top_n,
        ∃ record ∈ dataset, record.recommended_career = cb.1) →
      ∃ out, RecommendationEngine.recommend dataset profile classes proba top_n = some out := by
  constructor
  · rw [RecommendationEngine._rule_based_boost, RecommendationEngine.firstRecordFor]
    have : dataset.find? (fun record => decide (record.recommended_career = career)) = none := by
      rw [List.find?_eq_none]
      intro record hmem
      simp [h record hmem]
    rw [this]
    rfl
  · intro classes proba top_n hbacked
    obtain ⟨out, hout⟩ :=
      RecommendationEngine.go_isSome_of_backed dataset profile _ hbacked
    exact ⟨out, by rw [RecommendationEngine.recommend]; exact hout⟩

/-! ### C5 / C6 — properties of the rule-based ranker -/

namespace InternshipRecommender

/-- What a successful `recommend` returns, in terms of the scored list. -/
lemma recommend_some_eq (profile : UserProfile) (internships : List Internship)
    (limit : Int) (ranked out : List Recommendation)
    (hs : scoreAll profile internships = some ranked)
    (hr : recommend profile internships limit = some out) :
    out = if 0 < limit
      then ((ranked.insertionSort byScoreDesc).filter fun r =>
        decide (0 < r.score)).take limit.toNat
      else (ranked.insertionSort byScoreDesc).filter fun r => decide (0 < r.score) := by
  rw [recommend, hs] at hr
  simp only [Option.map_some', Option.some.injEq] at hr
  exact hr.symm

end InternshipRecommender

/-- C6: every returned recommendation scores strictly above 0; a positive
`limit` caps the number of results; a non-positive `limit` returns every
positive-scoring candidate with no truncation (stated as a permutation of
the positive-scoring sublist of the scored catalog) and raises nothing. -/
theorem C6_positive_filter_and_limit (profile : UserProfile)
    (internships : List Internship) (limit : Int) (ranked out : List Recommendation)
    (hs : InternshipRecommender.scoreAll profile internships = some ranked)
    (hr : InternshipRecommender.recommend profile internships limit = some out) :
    (∀ r ∈ out, 0 < r.score) ∧
    (0 < limit → out.length ≤ limit.toNat) ∧
    (limit ≤ 0 → out ~ ranked.filter fun r => decide (0 < r.score)) := by
  have heq := InternshipRecommender.recommend_some_eq profile internships limit
    ranked out hs hr
  subst heq
  refine ⟨?_, ?_, ?_⟩
  · intro r hrmem
    by_cases h : 0 < limit
    · rw [if_pos h] at hrmem
      exact of_decide_eq_true (List.mem_filter.mp (List.mem_of_mem_take hrmem)).2
    · rw [if_neg h] at hrmem
      exact of_decide_eq_true (List.mem_filter.mp hrmem).2
  · intro h
    rw [if_pos h]
    exact List.length_take_le _ _
  · intro h
    rw [if_neg (by omega)]
    exact (List.perm_insertionSort InternshipRecommender.byScoreDesc ranked).filter _

/-- C6 witness: a two-internship catalog with `limit = 0`: the zero-scoring
onsite internship is dropped, the positive-scoring remote one is kept. -/
theorem C6_positive_filter_and_limit_witness :
    (∀ r ∈ [(⟨internshipRemote, 0.05,
        ["Hybrid/remote friendly for low-bandwidth access."]⟩ : Recommendation)],
      0 < r.score) ∧
    ((0 : Int) < 0 →
      [(⟨internshipRemote, 0.05,
        ["Hybrid/remote friendly for low-bandwidth access."]⟩ : Recommendation)].length ≤
        (0 : Int).toNat) ∧
    ((0 : Int) ≤ 0 →
      [(⟨internshipRemote, 0.05,
        ["Hybrid/remote friendly for low-bandwidth access."]⟩ : Recommendation)] ~
        [⟨internshipCity, 0, []⟩,
         (⟨internshipRemote, 0.05,
           ["Hybrid/remote friendly for low-bandwidth access."]⟩ : Recommendation)].filter
          fun r => decide (0 < r.score)) :=
  C6_positive_filter_and_limit profileEmpty [internshipCity, internshipRemote] 0
    [⟨internshipCity, 0, []⟩,
     ⟨internshipRemote, 0.05, ["Hybrid/remote friendly for low-bandwidth access."]⟩]
    [⟨internshipRemote, 0.05, ["Hybrid/remote friendly for low-bandwidth access."]⟩]
    (by with_unfolding_all rfl) (by with_unfolding_all rfl)

/-- C5: the output of the rule-based `recommend` is sorted by non-increasing
score, and recommendations having any one score value appear as a sublist
of the scored catalog restricted to that value — equal-score entries keep
their original catalog order (Python's sort is stable). -/
theorem C5_sorted_descending_stable (profile : UserProfile)
    (internships : List Internship) (limit : Int) (ranked out : List Recommendation)
    (hs : InternshipRecommender.scoreAll profile internships = some ranked)
    (hr : InternshipRecommender.recommend profile internships limit = some out) :
    out.Pairwise InternshipRecommender.byScoreDesc ∧
    ∀ s : ℚ, (out.filter fun r => decide (r.score = s)) <+
      (ranked.filter fun r => decide (r.score = s)) := by
  have heq := InternshipRecommender.recommend_some_eq profile internships limit
    ranked out hs hr
  subst heq
  have hsub : (if 0 < limit
      then ((ranked.insertionSort InternshipRecommender.byScoreDesc).filter fun r =>
        decide (0 < r.score)).take limit.toNat
      else (ranked.insertionSort InternshipRecommender.byScoreDesc).filter fun r =>
        decide (0 < r.score)) <+
      ranked.insertionSort InternshipRecommender.byScoreDesc := by
    by_cases h : 0 < limit
    · rw [if_pos h]
      exact (List.take_sublist _ _).trans (List.filter_sublist _)
    · rw [if_neg h]
      exact List.filter_sublist _
  constructor
  · exact List.Pairwise.sublist hsub
      (List.sorted_insertionSort InternshipRecommender.byScoreDesc ranked)
  · intro s
    have step1 := hsub.filter (fun r => decide (r.score = s))
    have key : ((ranked.insertionSort InternshipRecommender.byScoreDesc).filter fun r =>
        decide (r.score = s)) = ranked.filter fun r => decide (r.score = s) := by
      have hperm : ((ranked.insertionSort InternshipRecommender.byScoreDesc).filter fun r =>
          decide (r.score = s)) ~ ranked.filter fun r => decide (r.score = s) :=
        (List.perm_insertionSort InternshipRecommender.byScoreDesc ranked).filter _
      have hpair : (ranked.filter fun r => decide (r.score = s)).Pairwise
          InternshipRecommender.byScoreDesc := by
        apply List.pairwise_of_forall_mem_list
        intro a ha b hb
        have ha' := of_decide_eq_true (List.mem_filter.mp ha).2
        have hb' := of_decide_eq_true (List.mem_filter.mp hb).2
        exact le_of_eq (hb'.trans ha'.symm)
      have hself : (ranked.filter fun r => decide (r.score = s)).filter
          (fun r => decide (r.score = s)) = ranked.filter fun r => decide (r.score = s) :=
        List.filter_eq_self.mpr fun a ha => (List.mem_filter.mp ha).2
      have hs2 : (ranked.filter fun r => decide (r.score = s)) <+
          ((ranked.insertionSort InternshipRecommender.byScoreDesc).filter fun r =>
            decide (r.score = s)) := by
        have h1 : (ranked.filter fun r => decide (r.score = s)) <+
            ranked.insertionSort InternshipRecommender.byScoreDesc :=
          List.sublist_insertionSort hpair (List.filter_sublist _)
        have h2 := h1.filter (fun r => decide (r.score = s))
        rwa [hself] at h2
      exact (hs2.eq_of_length hperm.length_eq.symm).symm
    exact key ▸ step1

/-- C5 witness: two tied remote internships keep their catalog order. -/
theorem C5_sorted_descending_stable_witness :
    [(⟨internshipRemote, 0.05, ["Hybrid/remote friendly for low-bandwidth access."]⟩ :
        Recommendation),
     ⟨internshipRemote2, 0.05,
        ["Hybrid/remote friendly for low-bandwidth access."]⟩].Pairwise
      InternshipRecommender.byScoreDesc ∧
    ∀ s : ℚ,
      ([(⟨internshipRemote, 0.05,
          ["Hybrid/remote friendly for low-bandwidth access."]⟩ : Recommendation),
        ⟨internshipRemote2, 0.05,
          ["Hybrid/remote friendly for low-bandwidth access."]⟩].filter fun r =>
            decide (r.score = s)) <+
      ([(⟨internshipRemote, 0.05,
          ["Hybrid/remote friendly for low-bandwidth access."]⟩ : Recommendation),
        ⟨internshipRemote2, 0.05,
          ["Hybrid/remote friendly for low-bandwidth access."]⟩].filter fun r =>
            decide (r.score = s)) :=
  C5_sorted_descending_stable profileEmpty [internshipRemote, internshipRemote2] 5
    [⟨internshipRemote, 0.05, ["Hybrid/remote friendly for low-bandwidth access."]⟩,
     ⟨internshipRemote2, 0.05, ["Hybrid/remote friendly for low-bandwidth access."]⟩]
    [⟨internshipRemote, 0.05, ["Hybrid/remote friendly for low-bandwidth access."]⟩,
     ⟨internshipRemote2, 0.05, ["Hybrid/remote friendly for low-bandwidth access."]⟩]
    (by with_unfolding_all rfl) (by with_unfolding_all rfl)

/-! ### C9 — the delivery-mode bonus -/

/-- C9 counterexample: the claim keys the +0.05 bonus on the delivery mode
normalized by trim + lower-case, but the code only lower-cases (line 150).
For delivery mode `" remote "` the trim+lower normalization is `"remote"`,
yet the score gets no bonus and no remote reason. -/
theorem C9_counterexample :
    InternshipRecommender._normalize " remote " = "remote" ∧
    InternshipRecommender.score profileEmpty internshipPadded =
      some ⟨internshipPadded, 0, []⟩ := by
  constructor
  · with_unfolding_all rfl
  · with_unfolding_all rfl

/-- C9 (corrected): when the delivery mode *lower-cased only* is "remote"
or "hybrid", the score is exactly the weighted score plus 0.05 and the
remote/low-bandwidth reason is appended; the bonus is not capped, so the
score can exceed 1. -/
theorem C9_remote_bonus (profile : UserProfile) (internship : Internship)
    (h : InternshipRecommender.remoteFriendly internship) :
    (∀ r, InternshipRecommender.score profile internship = some r →
      (∃ loc, InternshipRecommender._location_score profile.location internship.location =
          some loc ∧
        r.score = InternshipRecommender.weighted_score
          (InternshipRecommender._match_fraction profile.skills internship.skills)
          (InternshipRecommender._match_fraction profile.interests internship.interests)
          (InternshipRecommender.educationScore profile internship) loc + 0.05) ∧
      "Hybrid/remote friendly for low-bandwidth access." ∈ r.reasons) ∧
    (∃ p i r, InternshipRecommender.score p i = some r ∧ 1 < r.score) := by
  constructor
  · intro r hr
    rw [InternshipRecommender.score] at hr
    cases hloc : InternshipRecommender._location_score profile.location internship.location with
    | none => rw [hloc] at hr; exact absurd hr (by simp)
    | some loc =>
      rw [hloc] at hr
      simp only [if_pos h, Option.some.injEq] at hr
      subst hr
      refine ⟨⟨loc, rfl, rfl⟩, ?_⟩
      exact List.mem_append_right _ (List.mem_singleton_self _)
  · refine ⟨profileFull, internshipFull,
      ⟨internshipFull, 1.05,
        ["Skills match: a.", "Interests match: b.", "Education level fits (B).",
         "Location match for local access.",
         "Hybrid/remote friendly for low-bandwidth access."]⟩, ?_, ?_⟩
    · with_unfolding_all rfl
    · norm_num

/-- C9 witness: the amended bonus statement applied to a concrete remote
internship. -/
theorem C9_remote_bonus_witness :
    (∀ r, InternshipRecommender.score profileEmpty internshipRemote = some r →
      (∃ loc, InternshipRecommender._location_score profileEmpty.location
          internshipRemote.location = some loc ∧
        r.score = InternshipRecommender.weighted_score
          (InternshipRecommender._match_fraction profileEmpty.skills internshipRemote.skills)
          (InternshipRecommender._match_fraction profileEmpty.interests
            internshipRemote.interests)
          (InternshipRecommender.educationScore profileEmpty internshipRemote) loc + 0.05) ∧
      "Hybrid/remote friendly for low-bandwidth access." ∈ r.reasons) ∧
    (∃ p i r, InternshipRecommender.score p i = some r ∧ 1 < r.score) :=
  C9_remote_bonus profileEmpty internshipRemote (Or.inl (by with_unfolding_all rfl))

/-- C7 witness: the amended statement applied to the concrete dataset and
the absent label "unknown". -/
theorem C7_missing_record_witness :
    RecommendationEngine._rule_based_boost datasetEx candidateEx "unknown" = none ∧
    ∀ classes proba top_n,
      (∀ cb ∈ ((classes.zip proba).insertionSort RecommendationEngine.byProbDesc).take top_n,
        ∃ record ∈ datasetEx, record.recommended_career = cb.1) →
      ∃ out, RecommendationEngine.recommend datasetEx candidateEx classes proba top_n =
        some out :=
  C7_missing_record datasetEx candidateEx "unknown" (by with_unfolding_all decide)

/-! ### C1 — representation independence of tokenization -/

lemma splitCore_sep_free (p : Char → Bool) (l : List Char) (h : ∀ c ∈ l, p c = false) :
    splitCore p l = (l, []) := by
  induction l with
  | nil => rfl
  | cons c cs ih =>
    rw [splitCore, ih (fun x hx => h x (List.mem_cons_of_mem c hx))]
    simp [h c (List.mem_cons_self c cs)]

lemma splitCore_append_sep (p : Char → Bool) (l₁ l₂ : List Char) (c : Char)
    (h : ∀ x ∈ l₁, p x = false) (hc : p c = true) :
    splitCore p (l₁ ++ c :: l₂) = (l₁, (splitCore p l₂).1 :: (splitCore p l₂).2) := by
  induction l₁ with
  | nil => rw [List.nil_append, splitCore]; simp [hc]
  | cons a as ih =>
    rw [List.cons_append, splitCore, ih (fun x hx => h x (List.mem_cons_of_mem a hx))]
    simp [h a (List.mem_cons_self a as)]

lemma pyStrip_cons_space (t : List Char) : pyStrip ⟨' ' :: t⟩ = pyStrip ⟨t⟩ := rfl


lemma map_commaToSemi_eq_self (l : List Char) (h : (',' : Char) ∉ l) :
    l.map (fun c => if c = ',' then ';' else c) = l := by
  conv_rhs => rw [← List.map_id l]
  apply List.map_congr_left
  intro a ha
  have hane : a ≠ ',' := fun heq => h (by rw [← heq]; exact ha)
  simp [hane]

lemma clean_tokens_space_head (T1 : List Char) (T2 : List (List Char)) :
    (((⟨' ' :: T1⟩ : String) :: T2.map String.mk).filter
        (fun token => decide (pyStrip token ≠ ""))).map
      (fun token => pyLower (pyStrip token)) =
    (((⟨T1⟩ : String) :: T2.map String.mk).filter
        (fun token => decide (pyStrip token ≠ ""))).map
      (fun token => pyLower (pyStrip token)) := by
  rw [List.filter_cons, List.filter_cons]
  rw [show pyStrip (⟨' ' :: T1⟩ : String) = pyStrip (⟨T1⟩ : String) from rfl]
  by_cases h : decide (pyStrip (⟨T1⟩ : String) ≠ "") = true
  · rw [if_pos h, if_pos h, List.map_cons, List.map_cons]
    rfl
  · rw [if_neg h, if_neg h]

lemma clean_list_single (p : String) (hp1 : pyStrip p ≠ "")
    (hp2 : (',' : Char) ∉ p.data) (hp3 : (';' : Char) ∉ p.data) :
    RecommendationEngine._clean_list p = [InternshipRecommender._normalize p] := by
  have hsplit : splitCore (fun c => decide (c = ';'))
      (pyReplace ',' ';' p).data = (p.data, []) := by
    rw [show (pyReplace ',' ';' p).data =
      p.data.map (fun c => if c = ',' then ';' else c) from rfl]
    rw [map_commaToSemi_eq_self p.data hp2]
    exact splitCore_sep_free _ _
      (fun x hx => decide_eq_false (fun hx' => hp3 (by rw [← hx']; exact hx)))
  have e1 : pySplit (fun c => decide (c = ';')) (pyReplace ',' ';' p) =
      [(⟨p.data⟩ : String)] := by
    rw [pySplit, hsplit]
    rfl
  rw [RecommendationEngine._clean_list, e1, List.filter_cons]
  rw [if_pos (decide_eq_true (show pyStrip (⟨p.data⟩ : String) ≠ "" from hp1))]
  rfl

lemma clean_list_cons_cons (p q : String) (qs : List String)
    (hp1 : pyStrip p ≠ "") (hp2 : (',' : Char) ∉ p.data) (hp3 : (';' : Char) ∉ p.data) :
    RecommendationEngine._clean_list (joinComma (p :: q :: qs)) =
      InternshipRecommender._normalize p ::
        RecommendationEngine._clean_list (joinComma (q :: qs)) := by
  have hjoin : (joinComma (p :: q :: qs)).data =
      p.data ++ ',' :: ' ' :: (joinComma (q :: qs)).data := by
    show (p.data ++ (", ").data) ++ (joinComma (q :: qs)).data = _
    rw [List.append_assoc]
    rfl
  have hrepl : (pyReplace ',' ';' (joinComma (p :: q :: qs))).data =
      p.data ++ ';' :: ' ' ::
        (joinComma (q :: qs)).data.map (fun c => if c = ',' then ';' else c) := by
    show (joinComma (p :: q :: qs)).data.map (fun c => if c = ',' then ';' else c) = _
    rw [hjoin, List.map_append, map_commaToSemi_eq_self p.data hp2, List.map_cons,
      List.map_cons]
    rfl
  have hsplit : splitCore (fun c => decide (c = ';'))
      (pyReplace ',' ';' (joinComma (p :: q :: qs))).data =
      (p.data,
        (' ' :: (splitCore (fun c => decide (c = ';'))
          ((joinComma (q :: qs)).data.map (fun c => if c = ',' then ';' else c))).1) ::
        (splitCore (fun c => decide (c = ';'))
          ((joinComma (q :: qs)).data.map (fun c => if c = ',' then ';' else c))).2) := by
    rw [hrepl]
    rw [splitCore_append_sep _ _ _ _
      (fun x hx => decide_eq_false (fun hx' => hp3 (by rw [← hx']; exact hx)))
      (by decide)]
    rw [show splitCore (fun c => decide (c = ';'))
      (' ' :: (joinComma (q :: qs)).data.map (fun c => if c = ',' then ';' else c)) =
      (' ' :: (splitCore (fun c => decide (c = ';'))
        ((joinComma (q :: qs)).data.map (fun c => if c = ',' then ';' else c))).1,
       (splitCore (fun c => decide (c = ';'))
        ((joinComma (q :: qs)).data.map (fun c => if c = ',' then ';' else c))).2)
      from rfl]
  have e1 : pySplit (fun c => decide (c = ';'))
      (pyReplace ',' ';' (joinComma (p :: q :: qs))) =
      (⟨p.data⟩ : String) ::
        (⟨' ' :: (splitCore (fun c => decide (c = ';'))
          ((joinComma (q :: qs)).data.map (fun c => if c = ',' then ';' else c))).1⟩ :
            String) ::
        ((splitCore (fun c => decide (c = ';'))
          ((joinComma (q :: qs)).data.map (fun c => if c = ',' then ';' else c))).2.map
          String.mk) := by
    rw [pySplit, hsplit]
    rfl
  rw [RecommendationEngine._clean_list, e1, List.filter_cons]
  rw [if_pos (decide_eq_true (show pyStrip (⟨p.data⟩ : String) ≠ "" from hp1))]
  rw [List.map_cons]
  rw [show pyLower (pyStrip (⟨p.data⟩ : String)) =
    InternshipRecommender._normalize p from rfl]
  congr 1
  rw [clean_tokens_space_head]
  rfl

/-- Both tokenizers agree on any logical set of phrases: feeding the list
through `_tokenize` or its `", "`-joined string through `_clean_list`
yields the same normalized token list. -/
lemma clean_list_join_eq_tokenize (phrases : List String)
    (h : ∀ p ∈ phrases, pyStrip p ≠ "" ∧ (',' : Char) ∉ p.data ∧ (';' : Char) ∉ p.data) :
    RecommendationEngine._clean_list (joinComma phrases) =
      InternshipRecommender._tokenize phrases := by
  induction phrases with
  | nil => with_unfolding_all rfl
  | cons p ps ih =>
    obtain ⟨hp1, hp2, hp3⟩ := h p (List.mem_cons_self p ps)
    have hpne : p ≠ "" := by
      intro he
      apply hp1
      rw [he]
      rfl
    cases ps with
    | nil =>
      rw [show joinComma [p] = p from rfl, clean_list_single p hp1 hp2 hp3]
      rw [InternshipRecommender._tokenize, List.filter_cons]
      rw [if_pos (decide_eq_true hpne)]
      rfl
    | cons q qs =>
      rw [clean_list_cons_cons p q qs hp1 hp2 hp3]
      rw [ih (fun x hx => h x (List.mem_cons_of_mem p hx))]
      conv_rhs => rw [InternshipRecommender._tokenize, List.filter_cons,
        if_pos (decide_eq_true hpne), List.map_cons]
      rfl

/-- C1: tokenization is representation-independent — for every logical set
of phrases (non-blank, delimiter-free), the `_clean_list` of the single
comma-joined string equals the `_tokenize` of the phrase list; in
particular `"python, data analysis; ai"` and
`["python", "data analysis", "ai"]` both tokenize to the same 3 normalized
tokens, and empty or non-string input yields an empty token list without
error. -/
theorem C1_representation_independent (phrases : List String)
    (h : ∀ p ∈ phrases, pyStrip p ≠ "" ∧ (',' : Char) ∉ p.data ∧ (';' : Char) ∉ p.data) :
    RecommendationEngine._clean_list (joinComma phrases) =
      InternshipRecommender._tokenize phrases ∧
    RecommendationEngine._clean_list "python, data analysis; ai" =
      ["python", "data analysis", "ai"] ∧
    InternshipRecommender._tokenize ["python", "data analysis", "ai"] =
      ["python", "data analysis", "ai"] ∧
    InternshipRecommender._tokenize [] = [] ∧
    RecommendationEngine._clean_list "" = [] ∧
    RecommendationEngine._clean_list_any none = [] :=
  ⟨clean_list_join_eq_tokenize phrases h,
   by with_unfolding_all rfl,
   by with_unfolding_all rfl,
   rfl,
   by with_unfolding_all rfl,
   rfl⟩

/-- C1 witness: the equivalence applied to the concrete phrase list of the
spec's example. -/
theorem C1_representation_independent_witness :
    RecommendationEngine._clean_list (joinComma ["python", "data analysis", "ai"]) =
      InternshipRecommender._tokenize ["python", "data analysis", "ai"] ∧
    RecommendationEngine._clean_list "python, data analysis; ai" =
      ["python", "data analysis", "ai"] ∧
    InternshipRecommender._tokenize ["python", "data analysis", "ai"] =
      ["python", "data analysis", "ai"] ∧
    InternshipRecommender._tokenize [] = [] ∧
    RecommendationEngine._clean_list "" = [] ∧
    RecommendationEngine._clean_list_any none = [] :=
  C1_representation_independent ["python", "data analysis", "ai"]
    (by with_unfolding_all decide)
